import Mathlib

/-!
Verification development for the MODFLOW list-file scraper
(`flopy/utils/mflistfile.py`): the index builder (`ListBudget._get_index`),
budget block extractor (`ListBudget._get_sp`, `ListBudget._parse_budget_line`),
time block extractor (`ListTime._get_sp`, `ListTime._parse_time_line`) and the
series assembler (`ListBudget._load`, `ListBudget._set_entries`).

The text stream is modelled as a `List Line` of newline-stripped lines
(`Line := List Char`); a stream offset is the index of a line (every seekpoint
recorded by the code is taken at the start of a line, and every line-level
operation the code performs — slicing, stripping, counting, containment — is
insensitive to the trailing newline character).  Python numeric parsing
(`float(...)`, `int(...)`) is modelled over exact rationals: `float` results
are `PyF` values (`num q`, `nan`, `inf`, `ninf`); the binary float32/float64
rounding is not modelled (all concrete inputs used below are exactly
representable), and the rarely used underscore digit separators of Python
numeric literals are not modelled.
-/

set_option maxRecDepth 100000

/-- A line of the text stream, without its trailing newline. -/
abbrev Line := List Char

/-- Whitespace characters stripped by Python `str.strip()` / `str.split()`. -/
def isPySpace (c : Char) : Bool :=
  c = ' ' || c = '\t' || c = '\n' || c = '\r' || c = '\x0b' || c = '\x0c'

/-- Python slice `line[a:b]` (half-open, clamped to the line length). -/
def pySlice (l : Line) (a b : Nat) : Line :=
  (l.take b).drop a

/-- Python `str.strip()`: drop leading and trailing whitespace. -/
def pyStrip (l : Line) : Line :=
  ((l.dropWhile isPySpace).reverse.dropWhile isPySpace).reverse

/-- Python `str.upper()` (the files are ASCII). -/
def pyUpper (l : Line) : Line :=
  l.map Char.toUpper

/-- Does `needle` occur at the start of `hay`? -/
def strStarts : Line → Line → Bool
  | [], _ => true
  | _ :: _, [] => false
  | a :: as2, b :: bs => a = b && strStarts as2 bs

/-- Python substring test `needle in hay` (contiguous occurrence). -/
def containsStr : Line → Line → Bool
  | [], needle => strStarts needle []
  | c :: t, needle => strStarts needle (c :: t) || containsStr t needle

/-- Python `str.split()` with no argument: split on whitespace runs, no empty
tokens.  Fuel-driven so that it evaluates inside the kernel; the wrapper
passes enough fuel for the whole line. -/
def pySplitWsAux : Nat → Line → List Line
  | 0, _ => []
  | fuel + 1, l =>
    match l.dropWhile isPySpace with
    | [] => []
    | c :: rest =>
      let tok := (c :: rest).takeWhile (fun a => !(isPySpace a))
      tok :: pySplitWsAux fuel ((c :: rest).dropWhile (fun a => !(isPySpace a)))

/-- Python `str.split()` with no argument. -/
def pySplitWs (l : Line) : List Line :=
  pySplitWsAux (l.length + 1) l

/-- Split `l` at the first character satisfying `p`: returns the part before
it and, when found, the part after it. -/
def splitFirst (p : Char → Bool) : Line → Line × Option Line
  | [] => ([], none)
  | c :: r =>
    if p c then ([], some r)
    else
      let pr := splitFirst p r
      (c :: pr.1, pr.2)

/-- Is `c` an ASCII digit? -/
def isDigitCh (c : Char) : Bool :=
  '0' ≤ c && c ≤ '9'

/-- Are all characters ASCII digits (vacuously true on the empty list)? -/
def allDigits (l : Line) : Bool :=
  l.all isDigitCh

/-- Numeric value of a digit string. -/
def digitsVal (l : Line) : Nat :=
  l.foldl (fun a c => a * 10 + (c.toNat - 48)) 0

/-- Result of Python `float(...)`: a finite value (kept exact as a rational),
not-a-number or a signed infinity. -/
inductive PyF where
  | num (q : ℚ)
  | nan
  | inf
  | ninf
deriving DecidableEq, Repr

/-- Split off an optional leading sign; returns (isNegative, rest). -/
def splitSign : Line → Bool × Line
  | '+' :: r => (false, r)
  | '-' :: r => (true, r)
  | l => (false, l)

/-- Python `int(...)` on a string: strip whitespace, optional sign, a
non-empty digit run; anything else fails. -/
def pyInt? (s : Line) : Option Int :=
  let t := pyStrip s
  let sr := splitSign t
  if sr.2 ≠ [] ∧ allDigits sr.2 then
    some (if sr.1 then -(digitsVal sr.2 : Int) else (digitsVal sr.2 : Int))
  else
    none

/-- Python `float(...)` on a string: strip whitespace, optional sign, then
either nan / inf / infinity (case-insensitive) or a decimal literal
`digits [. digits] [ (e|E) [sign] digits ]` with at least one mantissa
digit.  Returns `none` where Python raises `ValueError`. -/
def pyFloat? (s : Line) : Option PyF :=
  let t := pyStrip s
  let sr := splitSign t
  let u := sr.2
  let uu := pyUpper u
  if uu = ("NAN").toList then some .nan
  else if uu = ("INF").toList ∨ uu = ("INFINITY").toList then
    some (if sr.1 then .ninf else .inf)
  else
    let me := splitFirst (fun c => c = 'e' || c = 'E') u
    let ifr := splitFirst (fun c => c = '.') me.1
    let ip := ifr.1
    let fp := (ifr.2).getD []
    if allDigits ip ∧ allDigits fp ∧ (ip ≠ [] ∨ fp ≠ []) then
      let expVal? : Option Int :=
        match me.2 with
        | none => some 0
        | some ep =>
          let esr := splitSign ep
          if esr.2 ≠ [] ∧ allDigits esr.2 then
            some (if esr.1 then -(digitsVal esr.2 : Int) else (digitsVal esr.2 : Int))
          else
            none
      match expVal? with
      | none => none
      | some e =>
        let m : Int := (if sr.1 then -1 else 1) * (digitsVal (ip ++ fp) : Int)
        let ex : Int := e - (fp.length : Int)
        let q : ℚ :=
          if 0 ≤ ex then mkRat (m * ((10 ^ ex.toNat : Nat) : Int)) 1
          else mkRat m (10 ^ (-ex).toNat)
        some (.num q)
    else
      none

/-! ## Variant configuration (`MfListBudget.__init__`, `ListTime.__init__`) -/

/-- Per-variant configuration constants fixed by the concrete constructors:
the key string marking a block, the number of lines read after the key line
before classifying timestep/period (`tssp_lines`), and the four half-open
column ranges (`ts_idxs`, `sp_idxs`, `cumu_idxs`, `flux_idxs`).  The time
variant (`ListTime`) never uses the cumulative/flux columns. -/
structure LstCfg where
  lstkey : Line
  tssp : Nat
  tsA : Nat
  tsB : Nat
  spA : Nat
  spB : Nat
  cumuA : Nat
  cumuB : Nat
  fluxA : Nat
  fluxB : Nat
deriving DecidableEq, Repr

/-- `MfListBudget` constants: key string `VOLUMETRIC BUDGET FOR ENTIRE MODEL`,
`tssp_lines = 0`, `ts_idxs = [56, 61]`, `sp_idxs = [76, 80]`,
`cumu_idxs = [22, 40]`, `flux_idxs = [63, 80]`. -/
def mfCfg : LstCfg :=
  { lstkey := ("VOLUMETRIC BUDGET FOR ENTIRE MODEL").toList
    tssp := 0, tsA := 56, tsB := 61, spA := 76, spB := 80
    cumuA := 22, cumuB := 40, fluxA := 63, fluxB := 80 }

/-- `ListTime` constants (with the default `flow=True`): key string
`TIME SUMMARY AT END`, `tssp_lines = 0`, `ts_idxs = [42, 47]`,
`sp_idxs = [63, 69]`; the cumulative/flux columns are unused. -/
def ltCfg : LstCfg :=
  { lstkey := ("TIME SUMMARY AT END").toList
    tssp := 0, tsA := 42, tsB := 47, spA := 63, spB := 69
    cumuA := 0, cumuB := 0, fluxA := 0, fluxB := 0 }

/-! ## Index builder (`ListBudget._get_index`, `_get_ts_sp`) -/

/-- Number of `=` characters in a line (`len(re.findall('=', line))`). -/
def countEq (l : Line) : Nat :=
  l.count '='

/-- `_get_ts_sp` applied to the line the scan is positioned on after reading
`tssp_lines` further lines: with `tssp_lines = 0` this is the key line
itself, otherwise the `tssp_lines`-th following line; returns `none` when
either `int(...)` cast fails (including the end-of-stream case, where
`readline` yields the empty string and the cast fails). -/
def idxClassify (cfg : LstCfg) (ls : List Line) : Option (Int × Int) :=
  match ls.get? cfg.tssp with
  | none => none
  | some cl =>
    match pyInt? (pySlice cl cfg.tsA cfg.tsB), pyInt? (pySlice cl cfg.spA cfg.spB) with
    | some ts, some sp => some (ts, sp)
    | _, _ => none

/-- Has the `maxentries` cap been reached?  Mirrors the Python truthiness
test `if maxentries and len(idxs) >= maxentries` (`None` and `0` disable the
cap). -/
def maxReached : Option Nat → Nat → Bool
  | none, _ => false
  | some m, n => if m = 0 then false else decide (m ≤ n)

/-- Scan loop of `_get_index`: walks the remaining lines (with `pos` the
absolute index of the current line); on a line containing the key string it
classifies timestep/period, appends `(ts, sp, seekpoint)` on success and
stops the whole scan on failure.  Fuel-driven for kernel evaluation; the
wrapper passes more fuel than there are lines, and every step consumes at
least one line, so the fuel never runs out. -/
def getIndexAux (cfg : LstCfg) (maxe : Option Nat) :
    Nat → List Line → Nat → List (Int × Int × Nat) → List (Int × Int × Nat)
  | 0, _, _, acc => acc
  | _ + 1, [], _, acc => acc
  | fuel + 1, l :: rest, pos, acc =>
    if containsStr l cfg.lstkey then
      match idxClassify cfg (l :: rest) with
      | none => acc
      | some tssp2 =>
        let acc2 := acc ++ [(tssp2.1, tssp2.2, pos)]
        if maxReached maxe acc2.length then acc2
        else getIndexAux cfg maxe fuel (rest.drop cfg.tssp) (pos + 1 + cfg.tssp) acc2
    else
      getIndexAux cfg maxe fuel rest (pos + 1) acc

/-- `ListBudget._get_index` / `_build_index`: the file's table of contents,
an ordered list of `(time_step, stress_period, seekpoint)` triples in file
discovery order. -/
def getIndex (cfg : LstCfg) (lines : List Line) (maxe : Option Nat) :
    List (Int × Int × Nat) :=
  getIndexAux cfg maxe (lines.length + 1) lines 0 []

/-! ## Budget line parser (`ListBudget._parse_budget_line`) -/

/-- `_parse_budget_line`: the entry label is the stripped text before the
first `=` of the stripped line; the cumulative and flux fields are the fixed
column slices, parsed with `float(...)`; on a failed parse the field becomes
NaN when the stripped upper-cased slice contains `NAN`, otherwise `None`.
Total: it returns a triple on every input line, so the (broken) exception
handler around its call site in `_get_sp` — whose `except e:` clause names
an undefined variable — can never be entered. -/
def parseBudgetLine (cfg : LstCfg) (line : Line) : Line × Option PyF × Option PyF :=
  let entry := pyStrip ((pyStrip line).takeWhile (fun c => c ≠ '='))
  let cu := pySlice line cfg.cumuA cfg.cumuB
  let fx := pySlice line cfg.fluxA cfg.fluxB
  let cumu :=
    match pyFloat? cu with
    | some v => some v
    | none => if containsStr (pyUpper (pyStrip cu)) (("NAN").toList) then some PyF.nan else none
  let flux :=
    match pyFloat? fx with
    | some v => some v
    | none => if containsStr (pyUpper (pyStrip fx)) (("NAN").toList) then some PyF.nan else none
  (entry, flux, cumu)

/-! ## Budget block extractor (`ListBudget._get_sp`) -/

/-- Insertion-ordered string-keyed dictionary (a Python `dict` restricted to
the operations the code uses): assignment updates in place or appends. -/
abbrev BDict := List (Line × PyF)

/-- Python `d[k] = v` on an insertion-ordered dict. -/
def dictInsert (d : BDict) (k : Line) (v : PyF) : BDict :=
  match d with
  | [] => [(k, v)]
  | (k1, v1) :: rest => if k1 = k then (k1, v) :: rest else (k1, v1) :: dictInsert rest k v

/-- Python `d[k]` as an option (`none` where Python raises `KeyError`). -/
def dictGet? (d : BDict) (k : Line) : Option PyF :=
  match d with
  | [] => none
  | (k1, v1) :: rest => if k1 = k then some v1 else dictGet? rest k

/-- Key construction of `_get_sp` (lines 268-276): note that the first branch
tests whether the upper-cased tag (`IN` / `OUT`) occurs as a substring of the
raw label, not which side of the block is being read. -/
def mkKey (tag entry : Line) : Line :=
  if containsStr entry (pyUpper tag) then
    if containsStr (pyUpper entry) ((" - ").toList) then entry.filter (fun c => c ≠ ' ')
    else entry.map (fun c => if c = ' ' then '_' else c)
  else if containsStr (pyUpper entry) (("PERCENT DISCREPANCY").toList) then
    entry.map (fun c => if c = ' ' then '_' else c)
  else
    entry.map (fun c => if c = ' ' then '_' else c) ++ '_' :: tag

/-- The failure modes of `_get_sp`, matching its three diagnostic messages:
end of file while seeking budget information, and a flux or cumulative field
that neither parses nor contains `NAN`. -/
inductive BudgetErr where
  | eofBudget
  | fluxCast
  | cumuCast
deriving DecidableEq, Repr

/-- Did the last parsed entry label equal `PERCENT DISCREPANCY`
(case-insensitive)?  The `none` state models the loop before any data line
has been processed; the first loop iteration always processes a data line
(the seek loop stopped on one), so the label is always bound when Python
evaluates `entry.upper()`. -/
def sentinelHit : Option Line → Bool
  | none => false
  | some e => pyUpper e = ("PERCENT DISCREPANCY").toList

/-- First phase of `_get_sp`: scan forward until a line contains exactly two
`=` characters; returns that line, the lines after it, and the number of
lines consumed; `none` at end of stream. -/
def seekBudget : Nat → List Line → Nat → Option (Line × List Line × Nat)
  | 0, _, _ => none
  | _ + 1, [], _ => none
  | fuel + 1, l :: rest, consumed =>
    if countEq l = 2 then some (l, rest, consumed + 1)
    else seekBudget fuel rest (consumed + 1)

/-- Main loop of `_get_sp`: `cur` is the line being processed, `rest` the
lines still unread, `tag` the current side-tag string (`IN`, flipped to
`OUT` by a non-data line containing `OUT:`), `lastE` the last parsed entry
label and `consumed` the running count of lines read.  A data line (exactly
two `=`) is parsed and keyed; `None` flux/cumulative fields abort with the
corresponding error.  After each line one more line is read, then the loop
stops once the last label was `PERCENT DISCREPANCY`; reading past the end of
the stream aborts with `eofBudget`.  Fuel-driven (the callers pass more fuel
than remaining lines). -/
def budgetLoop (cfg : LstCfg) :
    Nat → Line → List Line → Line → Option Line → BDict → BDict → Nat →
    Except BudgetErr (BDict × BDict) × Nat
  | 0, _, _, _, _, _, _, consumed => (Except.error .eofBudget, consumed)
  | fuel + 1, cur, rest, tag, lastE, inc, cum, consumed =>
    if countEq cur = 2 then
      let pr := parseBudgetLine cfg cur
      match pr.2.1 with
      | none => (Except.error .fluxCast, consumed)
      | some f =>
        match pr.2.2 with
        | none => (Except.error .cumuCast, consumed)
        | some c =>
          let key := mkKey tag pr.1
          let inc2 := dictInsert inc key f
          let cum2 := dictInsert cum key c
          if sentinelHit (some pr.1) then
            (Except.ok (inc2, cum2), consumed + (if rest.isEmpty then 0 else 1))
          else
            match rest with
            | [] => (Except.error .eofBudget, consumed)
            | n :: r => budgetLoop cfg fuel n r tag (some pr.1) inc2 cum2 (consumed + 1)
    else
      let tag2 := if containsStr (pyUpper cur) (("OUT:").toList) then ("OUT").toList else tag
      if sentinelHit lastE then
        (Except.ok (inc, cum), consumed + (if rest.isEmpty then 0 else 1))
      else
        match rest with
        | [] => (Except.error .eofBudget, consumed)
        | n :: r => budgetLoop cfg fuel n r tag2 lastE inc cum (consumed + 1)

/-- `_get_sp` from the start of the given line list: the seek phase followed
by the budget loop (tag starts as `IN`, both dicts empty).  Returns the
incremental and cumulative mappings, or the error kind where the code prints
a diagnostic and returns `null_entries`; also returns the number of lines
consumed (the stream position left behind). -/
def budgetScanC (cfg : LstCfg) (ls : List Line) : Except BudgetErr (BDict × BDict) × Nat :=
  match seekBudget (ls.length + 1) ls 0 with
  | none => (Except.error .eofBudget, ls.length)
  | some lrc => budgetLoop cfg (lrc.2.1.length + 1) lrc.1 lrc.2.1 (("IN").toList) none [] [] lrc.2.2

/-- `_get_sp` at a seekpoint: seek to the offset, then scan.  The result
before the `null_entries` substitution (which needs the established schema,
see `getSpWithNull`). -/
def getSpE (cfg : LstCfg) (lines : List Line) (off : Nat) : Except BudgetErr (BDict × BDict) :=
  (budgetScanC cfg (lines.drop off)).1

/-- `null_entries` as built by `_set_entries`: every schema key mapped to
NaN. -/
def mkNull (schema : List Line) : BDict :=
  schema.map (fun k => (k, PyF.nan))

/-- `_get_sp` as observed by `_load` once the schema is established: on any
failure the pair of all-NaN sentinel mappings is returned instead. -/
def getSpWithNull (cfg : LstCfg) (schema : List Line) (lines : List Line) (off : Nat) :
    BDict × BDict :=
  match getSpE cfg lines off with
  | Except.ok pr => pr
  | Except.error _ => (mkNull schema, mkNull schema)

/-- The open file handle: its content and the current position of the read
cursor.  `_get_sp` interacts with it through `seek` and `readline` only. -/
structure PyStream where
  lines : List Line
  pos : Nat
deriving DecidableEq, Repr

/-- `_get_sp` as a stateful operation on the shared file handle: it first
executes `self.f.seek(seekpoint)`, so the incoming cursor position is
discarded; the returned stream has the cursor after the last line read. -/
def getSpRun (cfg : LstCfg) (s : PyStream) (off : Nat) :
    Except BudgetErr (BDict × BDict) × PyStream :=
  let r := budgetScanC cfg (s.lines.drop off)
  (r.1, ⟨s.lines, off + r.2⟩)

/-! ## Time block extractor (`ListTime._get_sp`, `_parse_time_line`) -/

/-- The units header recognized by `ListTime._get_sp` (exact text of the
source literal). -/
def unitsHdr : Line :=
  ("SECONDS     MINUTES      HOURS       DAYS        YEARS").toList

/-- The separator recognized by `ListTime._get_sp`: a run of 59 `-`
characters (exact text of the source literal). -/
def dashSep : Line :=
  (String.mk (List.replicate 59 '-')).toList

/-- `ListTime._parse_time_line` with the `days` configuration
(`time_line_idx = 20`, `time_idx = 3`): split the substring from column 20,
and when the first token is absent or not a float, re-split from column 45
and select token 0 instead of token 3; the selected token is parsed with
`float(...)`, any failure yielding `none`. -/
def parseTimeLine (l : Line) : Option PyF :=
  let raw := pySplitWs (l.drop 20)
  match raw.get? 0 with
  | some t0 =>
    match pyFloat? t0 with
    | some _ => (raw.get? 3).bind pyFloat?
    | none => ((pySplitWs (l.drop 45)).get? 0).bind pyFloat?
  | none => ((pySplitWs (l.drop 45)).get? 0).bind pyFloat?

/-- `ListTime._parse_time_line` written from the words of the specification:
take the substring from the configured start column (20) to line end, split
on whitespace and select the configured token index (3 for days); when the
primary token is not numeric, re-split from the alternate start column (45)
and select the first token; return the selected token as the parsed float. -/
def specTimeLine (l : Line) : Option PyF :=
  let raw := pySplitWs (l.drop 20)
  let primaryNumeric :=
    match raw.get? 0 with
    | some t0 => (pyFloat? t0).isSome
    | none => false
  if primaryNumeric then (raw.get? 3).bind pyFloat?
  else ((pySplitWs (l.drop 45)).get? 0).bind pyFloat?

/-- Header-skipping loop of `ListTime._get_sp`: reading lines with a counter
`ihead`; stops on the second line when it is not the units header (treating
it as the first time line), or on the line after a separator line; end of
stream anywhere yields `none` (the code returns the 3-NaN sentinel, and a
separator directly before end of stream leads to `_parse_time_line('')`,
which also fails). -/
def timeHeaderSkip : Nat → List Line → Nat → Option (Line × List Line)
  | 0, _, _ => none
  | _ + 1, [], _ => none
  | fuel + 1, l :: rest, ihead0 =>
    let ihead := ihead0 + 1
    if ihead = 2 ∧ containsStr l unitsHdr = false then some (l, rest)
    else if containsStr l dashSep then
      match rest with
      | [] => none
      | n :: r => some (n, r)
    else timeHeaderSkip fuel rest ihead

/-- `ListTime._get_sp` at a seekpoint: skip the header, then parse three
consecutive lines as step length, stress-period time and total time;
`none` wherever the code prints a diagnostic and returns the 3-NaN
sentinel. -/
def ltGetSp (lines : List Line) (off : Nat) : Option (PyF × PyF × PyF) :=
  let ls := lines.drop off
  match timeHeaderSkip (ls.length + 1) ls 0 with
  | none => none
  | some l1r =>
    match parseTimeLine l1r.1 with
    | none => none
    | some tslen =>
      match l1r.2 with
      | [] => none
      | l2 :: rest2 =>
        match parseTimeLine l2 with
        | none => none
        | some sptim =>
          match rest2 with
          | [] => none
          | l3 :: _ =>
            match parseTimeLine l3 with
            | none => none
            | some totim => some (tslen, sptim, totim)

/-- `ListTime._load` restricted to what `ListBudget._load` consumes
(`get_times`): one total-time value per time-summary block, NaN for a block
degraded to the sentinel. -/
def ltTotim (tcfg : LstCfg) (lines : List Line) : List PyF :=
  (getIndex tcfg lines none).map fun t =>
    match ltGetSp lines t.2.2 with
    | some tr => tr.2.2
    | none => PyF.nan

/-! ## Series assembler (`ListBudget._set_entries`, `ListBudget._load`) -/

/-- `ListBudget._set_entries` (on a fresh instance, where `self.entries` is
still empty): empty index is a usage-contract error; any failure extracting
the first block (where `_get_sp` returns the not-yet-populated
`null_entries = []`, making the unpacking at the call site raise) is
reported as a setup error; otherwise the schema is the key list of the first
block's incremental mapping, in insertion order. -/
def setEntries (cfg : LstCfg) (lines : List Line) (idx : List (Int × Int × Nat)) :
    Except String (List Line) :=
  match idx with
  | [] => Except.error ("must call build_index before call set_entries")
  | e0 :: _ =>
    match getSpE cfg lines e0.2.2 with
    | Except.error _ =>
      Except.error ("unable to read budget information from first entry in list file")
    | Except.ok pr => Except.ok (pr.1.map (fun kv => kv.1))

/-- The per-entry column accumulators of `_load` (`incdict` / `cumdict`):
each schema key mapped to the ordered list of its values so far. -/
abbrev ColAcc := List (Line × List PyF)

/-- One row of the accumulation loop of `_load`: for every schema column, in
schema order, look the key up in the block's mapping and append; a missing
key is Python's `KeyError` (uncaught in `_load`). -/
def appendRow (acc : ColAcc) (d : BDict) : Option ColAcc :=
  match acc with
  | [] => some []
  | (k, col) :: rest =>
    match dictGet? d k with
    | none => none
    | some v => (appendRow rest d).map (fun r2 => (k, col ++ [v]) :: r2)

/-- The accumulation loop of `_load`: one extraction per index entry, in
index order, each appended into both column accumulators (failed blocks
contribute the all-NaN sentinel row). -/
def accumRows (cfg : LstCfg) (lines : List Line) (schema : List Line) :
    List (Int × Int × Nat) → ColAcc × ColAcc → Except String (ColAcc × ColAcc)
  | [], acc => Except.ok acc
  | t :: rest, acc =>
    let pr := getSpWithNull cfg schema lines t.2.2
    match appendRow acc.1 pr.1 with
    | none => Except.error ("KeyError")
    | some iA2 =>
      match appendRow acc.2 pr.2 with
      | none => Except.error ("KeyError")
      | some cA2 => accumRows cfg lines schema rest (iA2, cA2)

/-- NumPy assignment `rec[col] = np.array(xs)` into a column of length `n`:
exact length or a broadcastable length-1 array; anything else raises. -/
def broadcastTo (xs : List PyF) (n : Nat) : Option (List PyF) :=
  if xs.length = n then some xs
  else
    match xs with
    | [x] => some (List.replicate n x)
    | _ => none

/-- The assembled tables of `_load`: the schema, the incremental and
cumulative columns, and the synthesized `totim`, `time_step` and
`stress_period` columns. -/
structure LoadResult where
  entries : List Line
  inc : ColAcc
  cum : ColAcc
  totim : List PyF
  timeStep : List Int
  stressPeriod : List Int
deriving DecidableEq, Repr

/-- `ListBudget._load` (with `ListTime` driven on the same stream content for
`totim`): build the index, establish the schema from the first block,
accumulate one row per index entry, then attach `totim` (broadcast to the
row count, as the NumPy recarray assignment does) and the index columns.
Errors are the exceptions `_load` raises or propagates. -/
def lbLoad (cfg tcfg : LstCfg) (lines : List Line) (maxe : Option Nat) :
    Except String LoadResult :=
  let idx := getIndex cfg lines maxe
  match setEntries cfg lines idx with
  | Except.error msg => Except.error msg
  | Except.ok entries =>
    match accumRows cfg lines entries idx
        (entries.map (fun k => (k, [])), entries.map (fun k => (k, []))) with
    | Except.error msg => Except.error msg
    | Except.ok acc =>
      let nentries := ((acc.1.map (fun p => p.2.length)).getLastD 0)
      match broadcastTo (ltTotim tcfg lines) nentries with
      | none => Except.error ("could not broadcast totim")
      | some tot =>
        Except.ok
          { entries := entries
            inc := acc.1
            cum := acc.2
            totim := tot
            timeStep := idx.map (fun t => t.1)
            stressPeriod := idx.map (fun t => t.2.1) }

/-! ## Concrete synthetic report files

Lines are assembled from padded fields so that each value sits exactly in
the column range the configuration slices (`cumu` in `[22, 40)`, `flux` in
`[63, 80)`, timestep/period in the variant's `ts_idxs` / `sp_idxs`). -/

/-- Right-pad with spaces to width `n`. -/
def padRight (s : String) (n : Nat) : String :=
  s ++ String.mk (List.replicate (n - s.length) ' ')

/-- Left-pad with spaces to width `n`. -/
def padLeft (s : String) (n : Nat) : String :=
  String.mk (List.replicate (n - s.length) ' ') ++ s

/-- A `MfListBudget` key line: the key phrase followed by the timestep field
in columns `[56, 61)` and the stress-period field in columns `[76, 80)`
(`ts` and `sp` are 5-character fields). -/
def keyLine (ts sp : String) : Line :=
  ("VOLUMETRIC BUDGET FOR ENTIRE MODEL AT END OF TIME STEP" ++ "  " ++ ts
    ++ " STRESS PERIOD" ++ sp).toList

/-- A budget data line: label-with-`=` part padded over `[0, 22)`, cumulative
field right-aligned in `[22, 40)`, a second label-with-`=` part right-aligned
in `[40, 63)` and the flux field right-aligned in `[63, 80)`: exactly two `=`
characters. -/
def budLine (labelA cu labelC fx : String) : Line :=
  (padRight labelA 22 ++ padLeft cu 18 ++ padLeft labelC 23 ++ padLeft fx 17).toList

/-- The section marker flipping the tag to `OUT`. -/
def outMarker : Line :=
  ("  OUT:").toList

/-- A `ListTime` key line: the key phrase followed by the timestep field in
columns `[42, 47)` and the stress-period field in columns `[63, 69)`
(`ts` is a 5-character field, `sp` a 6-character field). -/
def timeKeyLine (ts sp : String) : Line :=
  ("TIME SUMMARY AT END OF TIME STEP" ++ "          " ++ ts
    ++ " STRESS PERIOD" ++ "  " ++ sp).toList

/-- A time-summary value line: a 20-character label part, then the
whitespace-separated values (token 3 is the days value). -/
def timeValLine (label20 nums : String) : Line :=
  (label20 ++ nums).toList

/-- One complete time-summary block (key line and the three value lines,
without units header: `_get_sp` then treats the second line as the first
value line) whose total elapsed time (days) is `tot`. -/
def timeBlock (ts tot : String) : List Line :=
  [timeKeyLine ts ("     1"),
   timeValLine ("   TIME STEP LENGTH ") ("86400.0 1440.0 24.000 1.0000"),
   timeValLine (" STRESS PERIOD TIME ") ("86400.0 1440.0 24.000 1.0000"),
   timeValLine ("         TOTAL TIME ") ("86400.0 1440.0 24.000 " ++ tot)]

/-- The minimal one-block file of the specification scenario: one budget
block (in-entry STORAGE flux 1.0 / cumulative 10.0, out-entry WELLS flux
2.0 / cumulative 20.0, sentinel PERCENT DISCREPANCY 0.0 / 0.0 at timestep 1,
stress period 1) and its matching time-summary block. -/
def file1 : List Line :=
  [keyLine ("    1") ("    1"),
   budLine ("        STORAGE =") ("10.0000") ("STORAGE =") ("1.0000"),
   outMarker,
   budLine ("        WELLS =") ("20.0000") ("WELLS =") ("2.0000"),
   budLine (" PERCENT DISCREPANCY =") ("0.0000") ("PERCENT DISCREPANCY =") ("0.0000")]
  ++ timeBlock ("    1") ("2.5000")

/-- A two-block file whose second block is truncated by end of stream before
its PERCENT DISCREPANCY sentinel: block 1 (offset 0) is complete, block 2
(offset 5) stops after one data line. -/
def file2 : List Line :=
  [keyLine ("    1") ("    1"),
   budLine ("        STORAGE =") ("10.0000") ("STORAGE =") ("1.0000"),
   outMarker,
   budLine ("        WELLS =") ("20.0000") ("WELLS =") ("2.0000"),
   budLine (" PERCENT DISCREPANCY =") ("0.0000") ("PERCENT DISCREPANCY =") ("0.0000"),
   keyLine ("    2") ("    1"),
   budLine ("        STORAGE =") ("11.0000") ("STORAGE =") ("3.0000")]

/-- The schema established from the first block of the two-block files. -/
def schema1 : List Line :=
  [("STORAGE_IN").toList, ("WELLS_OUT").toList, ("PERCENT_DISCREPANCY").toList]

/-- A file whose second key line carries unclassifiable timestep columns
(letters where `int(...)` expects digits) and which is followed by a third,
well-formed key line: index construction must stop at the malformed line and
return only the first entry. -/
def file3 : List Line :=
  [keyLine ("    1") ("    1"),
   keyLine ("  ABC") ("    1"),
   keyLine ("    3") ("    1")]

/-- A one-block file whose single in-side entry label is the hyphenated
compound `STORAGE - UNSATURATED` (the label runs to column 21, so the first
`=` sits at column 21, directly before the cumulative field). -/
def fileHyph : List Line :=
  [keyLine ("    1") ("    1"),
   budLine ("STORAGE - UNSATURATED=") ("12.0000") ("X =") ("4.0000"),
   budLine (" PERCENT DISCREPANCY =") ("0.0000") ("PERCENT DISCREPANCY =") ("0.0000")]

/-- A one-block file whose single in-side entry label `DRAINS` contains the
tag string `IN` as a substring. -/
def fileKeys : List Line :=
  [keyLine ("    1") ("    1"),
   budLine ("        DRAINS =") ("30.0000") ("DRAINS =") ("3.0000"),
   budLine (" PERCENT DISCREPANCY =") ("0.0000") ("PERCENT DISCREPANCY =") ("0.0000")]

/-- A two-block file (with matching time-summary blocks) whose second block
parses successfully and contains every schema key plus an extra in-entry
`RECHARGE` that is not in the schema established from block 1. -/
def fileExtra : List Line :=
  [keyLine ("    1") ("    1"),
   budLine ("        STORAGE =") ("10.0000") ("STORAGE =") ("1.0000"),
   outMarker,
   budLine ("        WELLS =") ("20.0000") ("WELLS =") ("2.0000"),
   budLine (" PERCENT DISCREPANCY =") ("0.0000") ("PERCENT DISCREPANCY =") ("0.0000"),
   keyLine ("    2") ("    1"),
   budLine ("        STORAGE =") ("11.0000") ("STORAGE =") ("3.0000"),
   budLine ("        RECHARGE =") ("40.0000") ("RECHARGE =") ("4.0000"),
   outMarker,
   budLine ("        WELLS =") ("21.0000") ("WELLS =") ("5.0000"),
   budLine (" PERCENT DISCREPANCY =") ("0.0000") ("PERCENT DISCREPANCY =") ("0.0000")]
  ++ timeBlock ("    1") ("2.5000") ++ timeBlock ("    2") ("5.0000")

/-- A two-block file whose second block parses successfully but contains
only the PERCENT DISCREPANCY entry, so the schema keys `STORAGE_IN` and
`WELLS_OUT` are absent from its result mapping. -/
def fileMissing : List Line :=
  [keyLine ("    1") ("    1"),
   budLine ("        STORAGE =") ("10.0000") ("STORAGE =") ("1.0000"),
   outMarker,
   budLine ("        WELLS =") ("20.0000") ("WELLS =") ("2.0000"),
   budLine (" PERCENT DISCREPANCY =") ("0.0000") ("PERCENT DISCREPANCY =") ("0.0000"),
   keyLine ("    2") ("    1"),
   budLine (" PERCENT DISCREPANCY =") ("0.0000") ("PERCENT DISCREPANCY =") ("0.0000")]

/-- A line whose flux column slice reads `NAN` (formatted placeholder): the
`float(...)` parse fails and the NaN fallback of `_parse_budget_line`
applies.  Note `float` itself also accepts a literal `nan` token; this line
exercises the fallback path via surrounding text. -/
def nanLine : Line :=
  budLine ("        STORAGE =") ("10.0000") ("STORAGE =") ("*NAN*")

deriving instance DecidableEq for Except

/-- Schema key `STORAGE_IN`. -/
def kSI : Line := ("STORAGE_IN").toList

/-- Schema key `WELLS_OUT`. -/
def kWO : Line := ("WELLS_OUT").toList

/-- Schema key `PERCENT_DISCREPANCY`. -/
def kPD : Line := ("PERCENT_DISCREPANCY").toList

/-- The keys of a block's incremental mapping, in insertion order (empty on
a failed extraction). -/
def blockKeys (cfg : LstCfg) (lines : List Line) (off : Nat) : List Line :=
  match getSpE cfg lines off with
  | Except.ok pr => pr.1.map (fun kv => kv.1)
  | Except.error _ => []

/-! ## General lemmas about the assembler -/

/-- Every schema key is mapped to NaN by the sentinel mapping. -/
theorem mkNull_get (ks : List Line) (k : Line) (hk : k ∈ ks) :
    dictGet? (mkNull ks) k = some PyF.nan := by
  induction ks with
  | nil => simp at hk
  | cons a t ih =>
    by_cases h : a = k
    · simp [mkNull, dictGet?, h]
    · have hmem : k ∈ t := by
        rcases List.mem_cons.mp hk with h1 | h1
        · exact absurd h1.symm h
        · exact h1
      simpa [mkNull, dictGet?, h] using ih hmem

/-- Python dict assignment never empties a dict. -/
theorem dictInsert_ne_nil (d : BDict) (k : Line) (v : PyF) : dictInsert d k v ≠ [] := by
  cases d with
  | nil => simp [dictInsert]
  | cons p rest =>
    simp only [dictInsert]
    split <;> simp

/-- Appending a row leaves the column keys unchanged. -/
theorem appendRow_keys (acc : ColAcc) (d : BDict) (acc2 : ColAcc)
    (h : appendRow acc d = some acc2) :
    acc2.map (fun p => p.1) = acc.map (fun p => p.1) := by
  induction acc generalizing acc2 with
  | nil =>
    simp [appendRow] at h
    subst h
    simp
  | cons p rest ih =>
    obtain ⟨k, col⟩ := p
    simp only [appendRow] at h
    cases hd : dictGet? d k with
    | none => rw [hd] at h; simp at h
    | some v =>
      rw [hd] at h
      rw [Option.map_eq_some'] at h
      obtain ⟨r2, hr2, hacc⟩ := h
      subst hacc
      simp [ih r2 hr2]

/-- Appending a row extends every column by exactly one value. -/
theorem appendRow_len (acc : ColAcc) (d : BDict) (acc2 : ColAcc)
    (h : appendRow acc d = some acc2) :
    acc2.map (fun p => p.2.length) = acc.map (fun p => p.2.length + 1) := by
  induction acc generalizing acc2 with
  | nil =>
    simp [appendRow] at h
    subst h
    simp
  | cons p rest ih =>
    obtain ⟨k, col⟩ := p
    simp only [appendRow] at h
    cases hd : dictGet? d k with
    | none => rw [hd] at h; simp at h
    | some v =>
      rw [hd] at h
      rw [Option.map_eq_some'] at h
      obtain ⟨r2, hr2, hacc⟩ := h
      subst hacc
      simp [ih r2 hr2]

/-- A row can only be appended when every column key is present in the
block's mapping. -/
theorem appendRow_mem (acc : ColAcc) (d : BDict) (acc2 : ColAcc)
    (h : appendRow acc d = some acc2) :
    ∀ k ∈ acc.map (fun p => p.1), dictGet? d k ≠ none := by
  induction acc generalizing acc2 with
  | nil => simp
  | cons p rest ih =>
    obtain ⟨k0, col⟩ := p
    simp only [appendRow] at h
    cases hd : dictGet? d k0 with
    | none => rw [hd] at h; simp at h
    | some v =>
      rw [hd] at h
      rw [Option.map_eq_some'] at h
      obtain ⟨r2, hr2, hacc⟩ := h
      intro k hk
      rcases List.mem_cons.mp hk with h1 | h1
      · subst h1; simp [hd]
      · exact ih r2 hr2 k h1

/-- The accumulation loop preserves the column keys and extends every column
of both tables by exactly the number of rows processed. -/
theorem accumRows_shape (cfg : LstCfg) (lines : List Line) (schema : List Line) :
    ∀ (ts : List (Int × Int × Nat)) (iA cA iA2 cA2 : ColAcc),
    accumRows cfg lines schema ts (iA, cA) = Except.ok (iA2, cA2) →
    iA2.map (fun p => p.1) = iA.map (fun p => p.1) ∧
    cA2.map (fun p => p.1) = cA.map (fun p => p.1) ∧
    iA2.map (fun p => p.2.length) = iA.map (fun p => p.2.length + ts.length) ∧
    cA2.map (fun p => p.2.length) = cA.map (fun p => p.2.length + ts.length) := by
  intro ts
  induction ts with
  | nil =>
    intro iA cA iA2 cA2 h
    simp [accumRows] at h
    obtain ⟨h1, h2⟩ := h
    subst h1; subst h2
    simp
  | cons t rest ih =>
    intro iA cA iA2 cA2 h
    simp only [accumRows] at h
    cases hi : appendRow iA (getSpWithNull cfg schema lines t.2.2).1 with
    | none => rw [hi] at h; simp at h
    | some iAm =>
      rw [hi] at h
      cases hc : appendRow cA (getSpWithNull cfg schema lines t.2.2).2 with
      | none => rw [hc] at h; simp at h
      | some cAm =>
        rw [hc] at h
        obtain ⟨k1, k2, k3, k4⟩ := ih iAm cAm iA2 cA2 h
        have e1 := appendRow_keys iA _ iAm hi
        have e2 := appendRow_keys cA _ cAm hc
        have e3 := appendRow_len iA _ iAm hi
        have e4 := appendRow_len cA _ cAm hc
        refine ⟨k1.trans e1, k2.trans e2, ?_, ?_⟩
        · rw [k3]
          have : (fun p : Line × List PyF => p.2.length + rest.length) =
              (fun n => n + rest.length) ∘ (fun p : Line × List PyF => p.2.length) := rfl
          rw [this, ← List.map_map, e3, List.map_map]
          apply List.map_congr_left
          intro p _
          simp
          omega
        · rw [k4]
          have : (fun p : Line × List PyF => p.2.length + rest.length) =
              (fun n => n + rest.length) ∘ (fun p : Line × List PyF => p.2.length) := rfl
          rw [this, ← List.map_map, e4, List.map_map]
          apply List.map_congr_left
          intro p _
          simp
          omega

/-- If the accumulation loop completes, then every row's block mapping
contained every column key (Python never hit a `KeyError`). -/
theorem accumRows_all_keys (cfg : LstCfg) (lines : List Line) (schema : List Line) :
    ∀ (ts : List (Int × Int × Nat)) (iA cA : ColAcc) (res : ColAcc × ColAcc),
    accumRows cfg lines schema ts (iA, cA) = Except.ok res →
    ∀ t ∈ ts, ∀ k ∈ iA.map (fun p => p.1),
      dictGet? (getSpWithNull cfg schema lines t.2.2).1 k ≠ none := by
  intro ts
  induction ts with
  | nil => simp
  | cons t0 rest ih =>
    intro iA cA res h t ht k hk
    simp only [accumRows] at h
    cases hi : appendRow iA (getSpWithNull cfg schema lines t0.2.2).1 with
    | none => rw [hi] at h; simp at h
    | some iAm =>
      rw [hi] at h
      cases hc : appendRow cA (getSpWithNull cfg schema lines t0.2.2).2 with
      | none => rw [hc] at h; simp at h
      | some cAm =>
        rw [hc] at h
        rcases List.mem_cons.mp ht with h1 | h1
        · subst h1
          exact appendRow_mem iA _ iAm hi k hk
        · have hk2 : k ∈ iAm.map (fun p => p.1) := by
            rw [appendRow_keys iA _ iAm hi]
            exact hk
          exact ih iAm cAm res h t h1 k hk2

/-- The budget loop only succeeds after processing the sentinel data line,
so a successful block mapping is never empty (the loop's `lastE` being
bound implies at least one insertion has happened). -/
theorem budgetLoop_ok_ne_nil (cfg : LstCfg) :
    ∀ (fuel : Nat) (cur : Line) (rest : List Line) (tag : Line) (lastE : Option Line)
      (inc cum : BDict) (consumed : Nat) (r : BDict × BDict) (c2 : Nat),
    budgetLoop cfg fuel cur rest tag lastE inc cum consumed = (Except.ok r, c2) →
    (lastE.isSome → inc ≠ []) → r.1 ≠ [] := by
  intro fuel
  induction fuel with
  | zero =>
    intro cur rest tag lastE inc cum consumed r c2 h _
    simp only [budgetLoop, Prod.mk.injEq] at h
    exact Except.noConfusion h.1
  | succ f ih =>
    intro cur rest tag lastE inc cum consumed r c2 h hinv
    simp only [budgetLoop] at h
    split at h
    · split at h
      · simp only [Prod.mk.injEq] at h
        exact Except.noConfusion h.1
      · split at h
        · simp only [Prod.mk.injEq] at h
          exact Except.noConfusion h.1
        · split at h
          · simp only [Prod.mk.injEq, Except.ok.injEq] at h
            rw [← h.1]
            exact dictInsert_ne_nil _ _ _
          · split at h
            · simp only [Prod.mk.injEq] at h
              exact Except.noConfusion h.1
            · exact ih _ _ _ _ _ _ _ r c2 h (fun _ => dictInsert_ne_nil _ _ _)
    · split at h
      · rename_i hs
        simp only [Prod.mk.injEq, Except.ok.injEq] at h
        rw [← h.1]
        apply hinv
        cases lastE with
        | none => simp [sentinelHit] at hs
        | some e => simp
      · split at h
        · simp only [Prod.mk.injEq] at h
          exact Except.noConfusion h.1
        · exact ih _ _ _ _ _ _ _ r c2 h hinv

/-- A successful block extraction returns a non-empty incremental mapping. -/
theorem getSpE_ok_ne_nil (cfg : LstCfg) (lines : List Line) (off : Nat)
    (pr : BDict × BDict) (h : getSpE cfg lines off = Except.ok pr) : pr.1 ≠ [] := by
  unfold getSpE budgetScanC at h
  cases hs : seekBudget ((lines.drop off).length + 1) (lines.drop off) 0 with
  | none => rw [hs] at h; exact Except.noConfusion h
  | some lrc =>
    rw [hs] at h
    have hfull : budgetLoop cfg (lrc.2.1.length + 1) lrc.1 lrc.2.1 (("IN").toList) none [] [] lrc.2.2 =
        (Except.ok pr,
         (budgetLoop cfg (lrc.2.1.length + 1) lrc.1 lrc.2.1 (("IN").toList) none [] [] lrc.2.2).2) := by
      exact Prod.ext h rfl
    exact budgetLoop_ok_ne_nil cfg _ _ _ _ _ _ _ _ pr _ hfull (by simp)

/-- `getLastD` of a constant-valued map over a non-empty list. -/
theorem map_const_getLastD (xs : List Line) (c : Nat) :
    ∀ d : Nat, (xs.map (fun _ => c)).getLastD d = if xs.isEmpty then d else c := by
  induction xs with
  | nil => intro d; rfl
  | cons a t ih =>
    intro d
    rw [List.map_cons, List.getLastD_cons, ih c]
    simp

/-- A successful NumPy column assignment yields a column of the target
length. -/
theorem broadcastTo_length (xs : List PyF) (n : Nat) (t : List PyF)
    (h : broadcastTo xs n = some t) : t.length = n := by
  unfold broadcastTo at h
  by_cases he : xs.length = n
  · rw [if_pos he] at h
    simp only [Option.some.injEq] at h
    rw [← h, he]
  · rw [if_neg he] at h
    cases xs with
    | nil => simp at h
    | cons x rest =>
      cases rest with
      | nil => simp only [Option.some.injEq] at h; rw [← h]; simp
      | cons y rr => simp at h

/-- Claim C3: for every report file on which the assembler's load completes,
the incremental and the cumulative table each have exactly K rows, where K
is the number of budget blocks discovered by the index build; the rows of
both tables are in index order (their `time_step` / `stress_period` columns
are exactly the index projections, in file discovery order); both tables
carry the identical column-key set (the established schema); and every
column — the schema columns of both tables and the synthesized `totim`
column — has exactly `len(index)` values. -/
theorem c3_table_shape (cfg tcfg : LstCfg) (lines : List Line) (maxe : Option Nat)
    (r : LoadResult) (h : lbLoad cfg tcfg lines maxe = Except.ok r) :
    r.inc.map (fun p => p.1) = r.entries ∧
    r.cum.map (fun p => p.1) = r.entries ∧
    (∀ p ∈ r.inc, p.2.length = (getIndex cfg lines maxe).length) ∧
    (∀ p ∈ r.cum, p.2.length = (getIndex cfg lines maxe).length) ∧
    r.timeStep = (getIndex cfg lines maxe).map (fun t => t.1) ∧
    r.stressPeriod = (getIndex cfg lines maxe).map (fun t => t.2.1) ∧
    r.totim.length = (getIndex cfg lines maxe).length := by
  simp only [lbLoad] at h
  split at h
  · exact Except.noConfusion h
  · rename_i entries hset
    split at h
    · exact Except.noConfusion h
    · rename_i acc hacc
      obtain ⟨iA2, cA2⟩ := acc
      split at h
      · exact Except.noConfusion h
      · rename_i tot htot
        simp only [Except.ok.injEq] at h
        subst h
        -- the schema is non-empty
        have hne : entries ≠ [] := by
          unfold setEntries at hset
          split at hset
          · exact Except.noConfusion hset
          · rename_i e0 it hidx
            split at hset
            · exact Except.noConfusion hset
            · rename_i pr hsp
              simp only [Except.ok.injEq] at hset
              subst hset
              have hpr := getSpE_ok_ne_nil cfg lines e0.2.2 pr hsp
              simpa [List.map_eq_nil_iff] using hpr
        obtain ⟨k1, k2, k3, k4⟩ :=
          accumRows_shape cfg lines entries (getIndex cfg lines maxe)
            (entries.map (fun k => (k, []))) (entries.map (fun k => (k, [])))
            iA2 cA2 hacc
        have hkeys1 : iA2.map (fun p => p.1) = entries := by
          rw [k1, List.map_map]
          have hc : ((fun p : Line × List PyF => p.1) ∘ fun k : Line => (k, ([] : List PyF))) = id := rfl
          rw [hc, List.map_id]
        have hkeys2 : cA2.map (fun p => p.1) = entries := by
          rw [k2, List.map_map]
          have hc : ((fun p : Line × List PyF => p.1) ∘ fun k : Line => (k, ([] : List PyF))) = id := rfl
          rw [hc, List.map_id]
        have hlen1 : iA2.map (fun p => p.2.length) =
            entries.map (fun _ => (getIndex cfg lines maxe).length) := by
          rw [k3, List.map_map]
          apply List.map_congr_left
          intro k _
          simp [Function.comp]
        have hlen2 : cA2.map (fun p => p.2.length) =
            entries.map (fun _ => (getIndex cfg lines maxe).length) := by
          rw [k4, List.map_map]
          apply List.map_congr_left
          intro k _
          simp [Function.comp]
        have hmem1 : ∀ p ∈ iA2, p.2.length = (getIndex cfg lines maxe).length := by
          intro p hp
          have h1 : p.2.length ∈ iA2.map (fun p => p.2.length) :=
            List.mem_map_of_mem (fun p => p.2.length) hp
          rw [hlen1] at h1
          obtain ⟨y, _, he⟩ := List.mem_map.mp h1
          exact he.symm
        have hmem2 : ∀ p ∈ cA2, p.2.length = (getIndex cfg lines maxe).length := by
          intro p hp
          have h1 : p.2.length ∈ cA2.map (fun p => p.2.length) :=
            List.mem_map_of_mem (fun p => p.2.length) hp
          rw [hlen2] at h1
          obtain ⟨y, _, he⟩ := List.mem_map.mp h1
          exact he.symm
        have hnent : ((iA2.map (fun p => p.2.length)).getLastD 0) =
            (getIndex cfg lines maxe).length := by
          rw [hlen1, map_const_getLastD]
          cases entries with
          | nil => exact absurd rfl hne
          | cons a t => simp
        refine ⟨hkeys1, hkeys2, hmem1, hmem2, rfl, rfl, ?_⟩
        rw [broadcastTo_length (ltTotim tcfg lines) _ tot htot, hnent]

/-- The load result of the minimal one-block file `file1`. -/
def res1 : LoadResult :=
  { entries := [kSI, kWO, kPD]
    inc := [(kSI, [PyF.num 1]), (kWO, [PyF.num 2]), (kPD, [PyF.num 0])]
    cum := [(kSI, [PyF.num 10]), (kWO, [PyF.num 20]), (kPD, [PyF.num 0])]
    totim := [PyF.num (mkRat 5 2)]
    timeStep := [1]
    stressPeriod := [1] }

/-- Claim C4: loading the minimal one-block file (key phrase `VOLUMETRIC
BUDGET FOR ENTIRE MODEL`, in-entry STORAGE flux 1.0 / cumulative 10.0,
out-entry WELLS flux 2.0 / cumulative 20.0, closing PERCENT DISCREPANCY
0.0 / 0.0, at timestep 1 and stress period 1, together with its matching
time-summary block) yields an incremental table with exactly one row:
STORAGE_IN = 1.0, WELLS_OUT = 2.0, PERCENT_DISCREPANCY = 0.0,
time_step = 1, stress_period = 1. -/
theorem c4_minimal_file_row :
    lbLoad mfCfg ltCfg file1 none = Except.ok res1 ∧
    res1.inc = [(kSI, [PyF.num 1]), (kWO, [PyF.num 2]), (kPD, [PyF.num 0])] ∧
    res1.timeStep = [1] ∧ res1.stressPeriod = [1] := by
  refine ⟨by decide, rfl, rfl, rfl⟩

/-- Witness for C3: the shape invariants instantiated at the concrete
one-block file `file1`, whose load succeeds. -/
theorem c3_table_shape_witness :
    lbLoad mfCfg ltCfg file1 none = Except.ok res1 ∧
    res1.inc.map (fun p => p.1) = res1.entries ∧
    res1.cum.map (fun p => p.1) = res1.entries ∧
    (∀ p ∈ res1.inc, p.2.length = (getIndex mfCfg file1 none).length) ∧
    (∀ p ∈ res1.cum, p.2.length = (getIndex mfCfg file1 none).length) ∧
    res1.timeStep = (getIndex mfCfg file1 none).map (fun t => t.1) ∧
    res1.stressPeriod = (getIndex mfCfg file1 none).map (fun t => t.2.1) ∧
    res1.totim.length = (getIndex mfCfg file1 none).length := by
  have h : lbLoad mfCfg ltCfg file1 none = Except.ok res1 := by decide
  exact ⟨h, c3_table_shape mfCfg ltCfg file1 none res1 h⟩

/-- Claim C7: on an empty stream, index construction returns the empty
index, and the schema-establishment step (and hence the load) signals the
usage-contract setup error about the index not being built — a typed error
value, not an out-of-range access (the model's `setEntries` checks for the
empty index before ever touching `idx_map[0]`, exactly as the code raises
before subscripting). -/
theorem c7_empty_stream_setup_error :
    getIndex mfCfg ([] : List Line) none = [] ∧
    setEntries mfCfg ([] : List Line) [] =
      Except.error ("must call build_index before call set_entries") ∧
    lbLoad mfCfg ltCfg ([] : List Line) none =
      Except.error ("must call build_index before call set_entries") := by
  exact ⟨rfl, rfl, rfl⟩

/-- Claim C9: budget extraction is idempotent and stateless with respect to
the shared file cursor: `_get_sp` begins with `seek(seekpoint)`, so its
result is a function of the file content and the offset alone — running it
twice in succession (the second time from whatever position the first run
left behind) yields identical mappings, and any starting cursor position
gives the same result. -/
theorem c9_extraction_stateless (cfg : LstCfg) (s : PyStream) (off : Nat) :
    (getSpRun cfg s off).1 = (getSpRun cfg (getSpRun cfg s off).2 off).1 ∧
    (∀ p : Nat, (getSpRun cfg ⟨s.lines, p⟩ off).1 = (getSpRun cfg s off).1) ∧
    (getSpRun cfg s off).1 = getSpE cfg s.lines off := by
  exact ⟨rfl, fun p => rfl, rfl⟩

/-- Claim C8: the time extractor parses a time-summary line by splitting the
substring from column 20 and selecting token 3 (days), falling back — when
the primary token is absent or not numeric — to re-splitting from column 45
and selecting the first token; the code's parser coincides with this
specification-side description on every line. -/
theorem c8_time_line_parse_matches_spec (l : Line) :
    parseTimeLine l = specTimeLine l := by
  unfold parseTimeLine specTimeLine
  simp only [← List.get?_eq_getElem?]
  cases h0 : (pySplitWs (l.drop 20)).get? 0 with
  | none => simp
  | some t0 =>
    cases hf : pyFloat? t0 with
    | none => simp [hf]
    | some v => simp [hf]

/-- Claim C5: a budget block whose stream content ends before the PERCENT
DISCREPANCY sentinel is processed (the extractor's end-of-stream outcome)
yields the all-missing sentinel — a pair of mappings sending every schema
key to NaN — and extraction of any block at its own offset is unaffected by
where previous calls left the shared cursor. -/
theorem c5_truncated_block_all_missing (cfg : LstCfg) (schema : List Line)
    (lines : List Line) (off : Nat)
    (h : getSpE cfg lines off = Except.error BudgetErr.eofBudget) :
    getSpWithNull cfg schema lines off = (mkNull schema, mkNull schema) ∧
    (∀ k ∈ schema, dictGet? (mkNull schema) k = some PyF.nan) ∧
    (∀ p off2 : Nat, (getSpRun cfg ⟨lines, p⟩ off2).1 = getSpE cfg lines off2) := by
  refine ⟨?_, fun k hk => mkNull_get schema k hk, fun p off2 => rfl⟩
  unfold getSpWithNull
  rw [h]

/-- Witness for C5: in the two-block file `file2`, block 2 (offset 5) is
truncated and degrades to the all-NaN sentinel, while block 1 (offset 0)
still parses to its proper values. -/
theorem c5_truncated_block_all_missing_witness :
    getSpE mfCfg file2 5 = Except.error BudgetErr.eofBudget ∧
    getSpWithNull mfCfg schema1 file2 5 = (mkNull schema1, mkNull schema1) ∧
    getSpE mfCfg file2 0 =
      Except.ok ([(kSI, PyF.num 1), (kWO, PyF.num 2), (kPD, PyF.num 0)],
                 [(kSI, PyF.num 10), (kWO, PyF.num 20), (kPD, PyF.num 0)]) := by
  have h : getSpE mfCfg file2 5 = Except.error BudgetErr.eofBudget := by decide
  exact ⟨h, (c5_truncated_block_all_missing mfCfg schema1 file2 5 h).1, by decide⟩

/-- Claim C6: when index construction meets a line following a found key
phrase whose timestep/period columns cannot be classified as integers, the
scan stops at that point and returns exactly the entries indexed so far (a
prefix in file order) — the function's return type carries no exception; in
the concrete `file3` the well-formed third key line after the malformed
second one is never indexed. -/
theorem c6_index_stops_on_classify_failure :
    (∀ (cfg : LstCfg) (maxe : Option Nat) (fuel pos : Nat) (l : Line) (rest : List Line)
        (acc : List (Int × Int × Nat)),
      containsStr l cfg.lstkey = true →
      idxClassify cfg (l :: rest) = none →
      getIndexAux cfg maxe (fuel + 1) (l :: rest) pos acc = acc) ∧
    getIndex mfCfg file3 none = [(1, 1, 0)] := by
  constructor
  · intro cfg maxe fuel pos l rest acc h1 h2
    simp [getIndexAux, h1, h2]
  · decide

/-- Witness for C6: the malformed second key line of `file3` stops the scan,
returning the single already-indexed entry. -/
theorem c6_index_stops_witness :
    containsStr (keyLine ("  ABC") ("    1")) mfCfg.lstkey = true ∧
    idxClassify mfCfg [keyLine ("  ABC") ("    1"), keyLine ("    3") ("    1")] = none ∧
    getIndexAux mfCfg none 3 [keyLine ("  ABC") ("    1"), keyLine ("    3") ("    1")] 1
      [(1, 1, 0)] = [(1, 1, 0)] := by
  have h1 : containsStr (keyLine ("  ABC") ("    1")) mfCfg.lstkey = true := by decide
  have h2 : idxClassify mfCfg [keyLine ("  ABC") ("    1"), keyLine ("    3") ("    1")] =
      none := by decide
  exact ⟨h1, h2, c6_index_stops_on_classify_failure.1 mfCfg none 2 1 _ _ _ h1 h2⟩

/-- Claim C10: the budget-line parser is total — on every input line it
returns a (label, flux, cumulative) triple where the label is the stripped
text before the first `=`, and each numeric field is the parsed float when
the column slice parses, NaN when it does not parse but its stripped
upper-cased text contains `NAN`, and `None` on any other failure.  Because
it can never raise, the surrounding `except e:` handler in `_get_sp` (which
names an undefined variable and would itself fail) is unreachable: the
model's extractor accordingly has no error case for it. -/
theorem c10_budget_line_parser_total (cfg : LstCfg) (line : Line) :
    (parseBudgetLine cfg line).1 =
      pyStrip ((pyStrip line).takeWhile (fun c => c ≠ '=')) ∧
    ((parseBudgetLine cfg line).2.1 = none ↔
      (pyFloat? (pySlice line cfg.fluxA cfg.fluxB) = none ∧
       containsStr (pyUpper (pyStrip (pySlice line cfg.fluxA cfg.fluxB)))
         (("NAN").toList) = false)) ∧
    ((parseBudgetLine cfg line).2.2 = none ↔
      (pyFloat? (pySlice line cfg.cumuA cfg.cumuB) = none ∧
       containsStr (pyUpper (pyStrip (pySlice line cfg.cumuA cfg.cumuB)))
         (("NAN").toList) = false)) ∧
    (∀ v, pyFloat? (pySlice line cfg.fluxA cfg.fluxB) = some v →
       (parseBudgetLine cfg line).2.1 = some v) ∧
    (pyFloat? (pySlice line cfg.fluxA cfg.fluxB) = none →
       containsStr (pyUpper (pyStrip (pySlice line cfg.fluxA cfg.fluxB)))
         (("NAN").toList) = true →
       (parseBudgetLine cfg line).2.1 = some PyF.nan) := by
  have e2 : (parseBudgetLine cfg line).2.1 =
      (match pyFloat? (pySlice line cfg.fluxA cfg.fluxB) with
       | some v => some v
       | none =>
         if containsStr (pyUpper (pyStrip (pySlice line cfg.fluxA cfg.fluxB)))
             (("NAN").toList)
         then some PyF.nan else none) := rfl
  have e3 : (parseBudgetLine cfg line).2.2 =
      (match pyFloat? (pySlice line cfg.cumuA cfg.cumuB) with
       | some v => some v
       | none =>
         if containsStr (pyUpper (pyStrip (pySlice line cfg.cumuA cfg.cumuB)))
             (("NAN").toList)
         then some PyF.nan else none) := rfl
  refine ⟨rfl, ?_, ?_, ?_, ?_⟩
  · rw [e2]
    cases hf : pyFloat? (pySlice line cfg.fluxA cfg.fluxB) with
    | none =>
      by_cases hn : containsStr (pyUpper (pyStrip (pySlice line cfg.fluxA cfg.fluxB)))
          (("NAN").toList) = true
      · simp [hn]
      · simp [hn]
    | some v => simp
  · rw [e3]
    cases hc : pyFloat? (pySlice line cfg.cumuA cfg.cumuB) with
    | none =>
      by_cases hn : containsStr (pyUpper (pyStrip (pySlice line cfg.cumuA cfg.cumuB)))
          (("NAN").toList) = true
      · simp [hn]
      · simp [hn]
    | some v => simp
  · intro v hv
    rw [e2, hv]
  · intro hv hn
    rw [e2, hv]
    simp [hn]
    exact hn

/-- Witness for C10: the NaN-fallback branch exercised on a concrete line
whose flux columns read `*NAN*` (unparseable as a float but containing
`NAN`). -/
theorem c10_budget_line_parser_total_witness :
    pyFloat? (pySlice nanLine mfCfg.fluxA mfCfg.fluxB) = none ∧
    containsStr (pyUpper (pyStrip (pySlice nanLine mfCfg.fluxA mfCfg.fluxB)))
      (("NAN").toList) = true ∧
    (parseBudgetLine mfCfg nanLine).2.1 = some PyF.nan := by
  have h1 : pyFloat? (pySlice nanLine mfCfg.fluxA mfCfg.fluxB) = none := by decide
  have h2 : containsStr (pyUpper (pyStrip (pySlice nanLine mfCfg.fluxA mfCfg.fluxB)))
      (("NAN").toList) = true := by decide
  exact ⟨h1, h2, (c10_budget_line_parser_total mfCfg nanLine).2.2.2.2 h1 h2⟩

/-- Counterexample to claim C2: processing the in-side budget data line with
the hyphenated label `STORAGE - UNSATURATED` does NOT produce the
spaces-removed, suffix-free key `STORAGE-UNSATURATED` the claim predicts:
since `IN` is not a substring of the label, the extractor takes the default
branch and produces `STORAGE_-_UNSATURATED_IN` — with underscore
substitution around the hyphen and a tag suffix. -/
theorem c2_counterexample_hyphen_key :
    blockKeys mfCfg fileHyph 0 = [("STORAGE_-_UNSATURATED_IN").toList, kPD] ∧
    (("STORAGE-UNSATURATED").toList) ∉ blockKeys mfCfg fileHyph 0 ∧
    '_' ∈ ("STORAGE_-_UNSATURATED_IN").toList := by
  refine ⟨by decide, by decide, by decide⟩

/-- Claim C2 as amended: the suffix-free branch of the key construction is
selected by the upper-cased tag occurring as a substring of the raw label,
not by the current side being "in".  While the tag is `IN`: a label
containing `IN` yields, when it contains ` - `, the label with spaces
removed, and otherwise the label with spaces replaced by underscores — in
both cases without tag suffix; a label not containing `IN` (and not a
PERCENT DISCREPANCY label) yields spaces-to-underscores plus the `_IN`
suffix.  Concretely: in-side `DRAINS` (contains `IN`) produces the
suffix-free key `DRAINS`, while the hyphenated in-side label
`STORAGE - UNSATURATED` (no `IN` substring) produces
`STORAGE_-_UNSATURATED_IN`, and the simple in-side label `STORAGE`
produces `STORAGE_IN`. -/
theorem c2_amended_key_construction :
    (∀ entry : Line, containsStr entry (("IN").toList) = true →
        containsStr (pyUpper entry) ((" - ").toList) = true →
        mkKey (("IN").toList) entry = entry.filter (fun c => c ≠ ' ')) ∧
    (∀ entry : Line, containsStr entry (("IN").toList) = true →
        containsStr (pyUpper entry) ((" - ").toList) = false →
        mkKey (("IN").toList) entry = entry.map (fun c => if c = ' ' then '_' else c)) ∧
    (∀ entry : Line, containsStr entry (("IN").toList) = false →
        containsStr (pyUpper entry) (("PERCENT DISCREPANCY").toList) = false →
        mkKey (("IN").toList) entry =
          entry.map (fun c => if c = ' ' then '_' else c) ++ ("_IN").toList) ∧
    blockKeys mfCfg fileKeys 0 = [("DRAINS").toList, kPD] ∧
    blockKeys mfCfg fileHyph 0 = [("STORAGE_-_UNSATURATED_IN").toList, kPD] ∧
    blockKeys mfCfg file1 0 = [kSI, kWO, kPD] := by
  have hup : pyUpper (("IN").toList) = ("IN").toList := by decide
  refine ⟨?_, ?_, ?_, by decide, by decide, by decide⟩
  · intro entry h1 h2
    simp only [mkKey, hup, h1, h2, if_true]
  · intro entry h1 h2
    simp only [mkKey, hup, h1, h2, Bool.false_eq_true, if_false, if_true]
    try rfl
  · intro entry h1 h2
    simp only [mkKey, hup, h1, h2, Bool.false_eq_true, if_false]
    try rfl

/-- Witness for C2 (amended): the three key-construction branches
discharged at the concrete labels `STORAGE - DRAINS`, `DRAINS` and
`STORAGE`. -/
theorem c2_amended_key_construction_witness :
    (containsStr (("STORAGE - DRAINS").toList) (("IN").toList) = true ∧
     containsStr (pyUpper (("STORAGE - DRAINS").toList)) ((" - ").toList) = true ∧
     mkKey (("IN").toList) (("STORAGE - DRAINS").toList) = ("STORAGE-DRAINS").toList) ∧
    (containsStr (("DRAINS").toList) (("IN").toList) = true ∧
     containsStr (pyUpper (("DRAINS").toList)) ((" - ").toList) = false ∧
     mkKey (("IN").toList) (("DRAINS").toList) = ("DRAINS").toList) ∧
    (containsStr (("STORAGE").toList) (("IN").toList) = false ∧
     containsStr (pyUpper (("STORAGE").toList)) (("PERCENT DISCREPANCY").toList) = false ∧
     mkKey (("IN").toList) (("STORAGE").toList) = ("STORAGE_IN").toList) := by
  have a1 : containsStr (("STORAGE - DRAINS").toList) (("IN").toList) = true := by decide
  have a2 : containsStr (pyUpper (("STORAGE - DRAINS").toList)) ((" - ").toList) = true := by
    decide
  have b1 : containsStr (("DRAINS").toList) (("IN").toList) = true := by decide
  have b2 : containsStr (pyUpper (("DRAINS").toList)) ((" - ").toList) = false := by decide
  have d1 : containsStr (("STORAGE").toList) (("IN").toList) = false := by decide
  have d2 : containsStr (pyUpper (("STORAGE").toList)) (("PERCENT DISCREPANCY").toList) =
      false := by decide
  refine ⟨⟨a1, a2, ?_⟩, ⟨b1, b2, ?_⟩, ⟨d1, d2, ?_⟩⟩
  · rw [c2_amended_key_construction.1 (("STORAGE - DRAINS").toList) a1 a2]
    decide
  · rw [c2_amended_key_construction.2.1 (("DRAINS").toList) b1 b2]
    decide
  · rw [c2_amended_key_construction.2.2.1 (("STORAGE").toList) d1 d2]
    decide

/-- Counterexample to claim C1: in `fileMissing` the second block parses
successfully but its result mapping lacks the schema keys `STORAGE_IN` and
`WELLS_OUT`; the assembler's load does NOT complete with NaN in those
slots — the column lookup fails (Python's uncaught `KeyError` in `_load`)
and the whole load aborts. -/
theorem c1_counterexample_load_fails :
    getIndex mfCfg fileMissing none = [(1, 1, 0), (2, 1, 5)] ∧
    setEntries mfCfg fileMissing (getIndex mfCfg fileMissing none) =
      Except.ok [kSI, kWO, kPD] ∧
    getSpE mfCfg fileMissing 5 =
      Except.ok ([(kPD, PyF.num 0)], [(kPD, PyF.num 0)]) ∧
    dictGet? [(kPD, PyF.num 0)] kSI = none ∧
    lbLoad mfCfg ltCfg fileMissing none = Except.error ("KeyError") := by
  refine ⟨by decide, by decide, by decide, by decide, by decide⟩

/-- The load result of the two-block file `fileExtra` (whose second block
carries the extra entry `RECHARGE`). -/
def resExtra : LoadResult :=
  { entries := [kSI, kWO, kPD]
    inc := [(kSI, [PyF.num 1, PyF.num 3]), (kWO, [PyF.num 2, PyF.num 5]),
            (kPD, [PyF.num 0, PyF.num 0])]
    cum := [(kSI, [PyF.num 10, PyF.num 11]), (kWO, [PyF.num 20, PyF.num 21]),
            (kPD, [PyF.num 0, PyF.num 0])]
    totim := [PyF.num (mkRat 5 2), PyF.num 5]
    timeStep := [1, 2]
    stressPeriod := [1, 1] }

/-- Claim C1 as amended: keys of a later block that are not in the
established schema are indeed silently dropped (the row loop reads only the
schema keys), but a schema key absent from a later successfully parsed
block does not become NaN — it makes the load fail with a key-lookup error.
(NaN rows arise only from blocks degraded to the all-missing sentinel,
which contains every schema key.)  In general form: whenever the load
completes, every successfully parsed block's mapping contained every schema
key.  Concretely: `fileExtra` (block 2 carries the extra key `RECHARGE_IN`)
loads, with the extra key absent from the schema and from both tables,
while `fileMissing` (block 2 lacks schema keys) aborts with the lookup
error. -/
theorem c1_amended_missing_key_aborts :
    (∀ (cfg tcfg : LstCfg) (lines : List Line) (maxe : Option Nat) (r : LoadResult),
      lbLoad cfg tcfg lines maxe = Except.ok r →
      ∀ t ∈ getIndex cfg lines maxe, ∀ k ∈ r.entries, ∀ pr,
        getSpE cfg lines t.2.2 = Except.ok pr → dictGet? pr.1 k ≠ none) ∧
    lbLoad mfCfg ltCfg fileExtra none = Except.ok resExtra ∧
    blockKeys mfCfg fileExtra 5 = [kSI, ("RECHARGE_IN").toList, kWO, kPD] ∧
    (("RECHARGE_IN").toList) ∉ resExtra.entries ∧
    (("RECHARGE_IN").toList) ∉ resExtra.inc.map (fun p => p.1) ∧
    lbLoad mfCfg ltCfg fileMissing none = Except.error ("KeyError") := by
  refine ⟨?_, by decide, by decide, by decide, by decide, by decide⟩
  intro cfg tcfg lines maxe r h t ht k hk pr hpr
  simp only [lbLoad] at h
  split at h
  · exact Except.noConfusion h
  · rename_i entries hset
    split at h
    · exact Except.noConfusion h
    · rename_i acc hacc
      split at h
      · exact Except.noConfusion h
      · rename_i tot htot
        simp only [Except.ok.injEq] at h
        subst h
        have hc : ((fun p : Line × List PyF => p.1) ∘
            fun k : Line => (k, ([] : List PyF))) = id := rfl
        have hk2 : k ∈ (entries.map (fun k => (k, ([] : List PyF)))).map
            (fun p => p.1) := by
          rw [List.map_map, hc, List.map_id]
          exact hk
        have hall := accumRows_all_keys cfg lines entries (getIndex cfg lines maxe)
          (entries.map (fun k => (k, ([] : List PyF))))
          (entries.map (fun k => (k, ([] : List PyF)))) acc hacc t ht k hk2
        have hwn : getSpWithNull cfg entries lines t.2.2 = pr := by
          unfold getSpWithNull
          rw [hpr]
        rw [hwn] at hall
        exact hall

/-- Witness for C1 (amended): the general no-missing-schema-key consequence
discharged at `fileExtra`, block 2, key `STORAGE_IN`. -/
theorem c1_amended_missing_key_aborts_witness :
    lbLoad mfCfg ltCfg fileExtra none = Except.ok resExtra ∧
    (2, 1, 5) ∈ getIndex mfCfg fileExtra none ∧
    kSI ∈ resExtra.entries ∧
    getSpE mfCfg fileExtra 5 =
      Except.ok ([(kSI, PyF.num 3), (("RECHARGE_IN").toList, PyF.num 4),
                  (kWO, PyF.num 5), (kPD, PyF.num 0)],
                 [(kSI, PyF.num 11), (("RECHARGE_IN").toList, PyF.num 40),
                  (kWO, PyF.num 21), (kPD, PyF.num 0)]) ∧
    dictGet? [(kSI, PyF.num 3), (("RECHARGE_IN").toList, PyF.num 4),
              (kWO, PyF.num 5), (kPD, PyF.num 0)] kSI ≠ none := by
  have h1 : lbLoad mfCfg ltCfg fileExtra none = Except.ok resExtra := by decide
  have h2 : (2, 1, 5) ∈ getIndex mfCfg fileExtra none := by decide
  have h3 : kSI ∈ resExtra.entries := by decide
  have h4 : getSpE mfCfg fileExtra 5 =
      Except.ok ([(kSI, PyF.num 3), (("RECHARGE_IN").toList, PyF.num 4),
                  (kWO, PyF.num 5), (kPD, PyF.num 0)],
                 [(kSI, PyF.num 11), (("RECHARGE_IN").toList, PyF.num 40),
                  (kWO, PyF.num 21), (kPD, PyF.num 0)]) := by decide
  exact ⟨h1, h2, h3, h4,
    c1_amended_missing_key_aborts.1 mfCfg ltCfg fileExtra none resExtra h1
      (2, 1, 5) h2 kSI h3 _ h4⟩
